import Mathlib

set_option maxRecDepth 10000

set_option allowUnsafeReducibility true in
attribute [semireducible] Rat.add Rat.mul Rat.sub Rat.inv Rat.ofScientific

/-!
Verification development for the Heston-Option-Pricing repository
(src/heston.py and src/run.py).

The code is embedded shallowly over ℚ.  Floating-point transcendental
functions (`np.sqrt`, `np.exp`) are abstracted as function parameters
`sq ex : ℚ → ℚ`; the standard-normal draws of `np.random.normal` are the
explicit inputs `zv zi : ℕ → ℕ → ℚ` (path index, time index), and the
uniform draws consumed by `np.random.choice` are the input `u : ℕ → ℚ`
(one per path).  Console printing and figure saving are tracked as an
explicit effect trace.  Exceptions that numpy/Python would raise
(ZeroDivisionError for `n = 0`, the `np.random.choice` probability
validation) are modelled with `Except String`.
-/

namespace Heston

/-! ### numpy primitives -/

/-- Model of the categorical draw performed by `np.random.choice(a, p=p)`
for a single uniform sample `u`: walk the cumulative distribution and
return the first choice whose cumulative probability exceeds `u`
(clamping to the last element, as searchsorted on the cdf does). -/
def categoricalPick : List ℚ → List ℚ → ℚ → ℚ
  | [], _, _ => 0
  | [c], _, _ => c
  | c :: _ :: _, [], _ => c
  | c :: c2 :: cs, p :: ps, u => if u < p then c else categoricalPick (c2 :: cs) ps (u - p)

/-- Model of `np.arange(start, stop, step)` for positive `step`:
the values `start + i * step` for `0 ≤ i < ⌈(stop - start) / step⌉`. -/
def npArange (start stop step : ℚ) : List ℚ :=
  (List.range (⌈(stop - start) / step⌉).toNat).map (fun i => start + (i : ℚ) * step)

/-- Model of `np.histogram(data, bins=edges)[0]`: counts per bin, each bin
half-open `[e_i, e_{i+1})` except the last, which is closed. -/
def histCounts (data : List ℚ) : List ℚ → List ℕ
  | [] => []
  | [_] => []
  | [e1, e2] => [data.countP (fun x => decide (e1 ≤ x) && decide (x ≤ e2))]
  | e1 :: e2 :: e3 :: es =>
    data.countP (fun x => decide (e1 ≤ x) && decide (x < e2)) :: histCounts data (e2 :: e3 :: es)

/-- Model of `np.argmax`: index of the first occurrence of the maximum. -/
def argmaxAux : List ℕ → ℕ → ℕ → ℕ → ℕ
  | [], _, bi, _ => bi
  | x :: xs, i, bi, bv => if bv < x then argmaxAux xs (i + 1) i x else argmaxAux xs (i + 1) bi bv

/-- `np.argmax` over a list of counts (0 on the empty list, where numpy
would raise). -/
def argmax : List ℕ → ℕ
  | [] => 0
  | x :: xs => argmaxAux xs 1 0 x

/-- `.min()` of a numpy vector (fold with the head as seed). -/
def listMin (l : List ℚ) : ℚ := l.foldl min (l.headD 0)

/-- `.max()` of a numpy vector (fold with the head as seed). -/
def listMax (l : List ℚ) : ℚ := l.foldl max (l.headD 0)

/-- `.mean()` of a numpy vector (`sum / length`; numpy yields NaN on an
empty vector, here `/ 0 = 0`). -/
def npMean (l : List ℚ) : ℚ := l.sum / (l.length : ℚ)

/-- `.std()` of a numpy vector: population standard deviation
`sqrt(mean((x - mean)²))`, with `np.sqrt` abstracted as `sq`. -/
def npStd (sq : ℚ → ℚ) (l : List ℚ) : ℚ :=
  sq (npMean (l.map (fun x => (x - npMean l) ^ 2)))

/-! ### Data model -/

/-- The simulation parameters read from `settings.csv` by
`heston.simulate` (src/heston.py lines 25-37) and hardcoded by
`run.simulate` (src/run.py lines 34-44). -/
structure HestonParams where
  r : ℚ
  k : ℚ
  s_o : ℚ
  t_max : ℚ
  v_o : ℚ
  sigma : ℚ
  theta : ℚ
  kappa : ℚ
  rho_choice : List ℚ
  rho_probability : List ℚ
  m : ℕ
  n : ℕ
deriving DecidableEq

/-- `dt = t_max / n` (src/heston.py line 41, src/run.py line 48). -/
def dtOf (P : HestonParams) : ℚ := P.t_max / (P.n : ℚ)

/-- `dw_v = np.random.normal(size=(m, n)) * np.sqrt(dt)`
(src/heston.py line 42): entry for path `i`, step `t`. -/
def dwV (P : HestonParams) (sq : ℚ → ℚ) (zv : ℕ → ℕ → ℚ) (i t : ℕ) : ℚ :=
  zv i t * sq (dtOf P)

/-- `dw_i = np.random.normal(size=(m, n)) * np.sqrt(dt)`
(src/heston.py line 43): entry for path `i`, step `t`. -/
def dwI (P : HestonParams) (sq : ℚ → ℚ) (zi : ℕ → ℕ → ℚ) (i t : ℕ) : ℚ :=
  zi i t * sq (dtOf P)

/-- `rho = np.random.choice(rho_choice, size=(m, 1), p=rho_probability)`
(src/heston.py line 44): one draw per path `i`, from the uniform `u i`. -/
def rhoOf (P : HestonParams) (u : ℕ → ℚ) (i : ℕ) : ℚ :=
  categoricalPick P.rho_choice P.rho_probability (u i)

/-- `dw_s = rho * dw_v + np.sqrt(1.0 - rho ** 2) * dw_i`
(src/heston.py line 45): entry for path `i`, step `t`; the per-path `rho`
is broadcast across all time steps. -/
def dwS (P : HestonParams) (sq : ℚ → ℚ) (zv zi : ℕ → ℕ → ℚ) (u : ℕ → ℚ) (i t : ℕ) : ℚ :=
  rhoOf P u i * dwV P sq zv i t + sq (1 - rhoOf P u i ^ 2) * dwI P sq zi i t

/-- One iteration of the time loop (src/heston.py lines 55-58), for a
single path, on the state `(v, s)`:
`dv = kappa*(theta - v)*dt + sigma*sqrt(v)*dw_v[:,t]`,
`ds = r*s*dt + sqrt(v)*s*dw_s[:,t]`,
`v ← np.clip(v + dv, 0, None)`, `s ← s + ds`.
Both deltas read the pre-update variance. -/
def hestonStep (P : HestonParams) (sq : ℚ → ℚ) (vs : ℚ × ℚ) (dwv dws : ℚ) : ℚ × ℚ :=
  let dv := P.kappa * (P.theta - vs.1) * dtOf P + P.sigma * sq vs.1 * dwv
  let ds := P.r * vs.2 * dtOf P + sq vs.1 * vs.2 * dws
  (max (vs.1 + dv) 0, vs.2 + ds)

/-- The per-path state after `t` loop iterations: component 1 is the
variance `v` (initialised `v_o`, src/heston.py line 53), component 2 the
price `s[i, t]` (initialised `s_o`, line 52).  The vectorized loop of
lines 54-58 acts elementwise per path, so it is the product of these
per-path recurrences. -/
def evolve (P : HestonParams) (sq : ℚ → ℚ) (zv zi : ℕ → ℕ → ℚ) (u : ℕ → ℚ)
    (i : ℕ) : ℕ → ℚ × ℚ
  | 0 => (P.v_o, P.s_o)
  | t + 1 =>
    hestonStep P sq (evolve P sq zv zi u i t) (dwV P sq zv i t) (dwS P sq zv zi u i t)

/-- Row `i` of the price matrix `s`: `s[i, t]` for `t = 0 .. n`. -/
def pricePath (P : HestonParams) (sq : ℚ → ℚ) (zv zi : ℕ → ℕ → ℚ) (u : ℕ → ℚ)
    (i : ℕ) : List ℚ :=
  (List.range (P.n + 1)).map (fun t => (evolve P sq zv zi u i t).2)

/-- The `[m, n+1]` price matrix `s` populated by the loop
(src/heston.py lines 51-58), as a list of rows. -/
def priceMatrix (P : HestonParams) (sq : ℚ → ℚ) (zv zi : ℕ → ℕ → ℚ) (u : ℕ → ℚ) :
    List (List ℚ) :=
  (List.range P.m).map (pricePath P sq zv zi u)

/-- `s[:, -1]`: the terminal column (last entry of each row). -/
def terminal (s : List (List ℚ)) : List ℚ := s.map (fun row => row.getLastD 0)

/-- `np.clip(s_T - k, 0, None)` (src/heston.py line 62, src/run.py
line 75): the elementwise European-call payoff vector. -/
def payoffOf (sT : List ℚ) (k : ℚ) : List ℚ := sT.map (fun x => max (x - k) 0)

/-! ### Effects and the heston.py engine -/

/-- A console print (message tag plus the numeric values formatted into
it) or a `plt.savefig` call. -/
inductive Effect where
  | print (msg : String) (vals : List ℚ)
  | savefig (file : String)
deriving DecidableEq

/-- The observable outcome of `heston.simulate`: the returned matrix
`s`, the locally computed expected payoff and option price, and the
effect trace (the two `print` calls of src/heston.py lines 64-65). -/
structure SimResult where
  s : List (List ℚ)
  expectedPayoff : ℚ
  optionPrice : ℚ
  effects : List Effect
deriving DecidableEq

/-- The validation `np.random.choice` performs on its arguments
(raising `ValueError`): non-empty choices, matching sizes, non-negative
probabilities, probabilities summing to 1 (exact here; numpy allows a
tiny float tolerance). -/
def choiceError (choices probs : List ℚ) : Option String :=
  if choices = [] then some "ValueError: a cannot be empty"
  else if choices.length ≠ probs.length then some "ValueError: a and p must have same size"
  else if probs.any (fun p => decide (p < 0)) then
    some "ValueError: probabilities are not non-negative"
  else if probs.sum ≠ 1 then some "ValueError: probabilities do not sum to 1"
  else none

/-- The successful branch of `heston.simulate`: the loop fills `s`
(lines 51-58), the expected payoff and option price are computed and
printed (lines 62-65), and `s` is returned. -/
def hestonRun (P : HestonParams) (sq ex : ℚ → ℚ) (zv zi : ℕ → ℕ → ℚ)
    (u : ℕ → ℚ) : SimResult :=
  let s := priceMatrix P sq zv zi u
  let expectedPayoff := npMean (payoffOf (terminal s) P.k)
  let c := expectedPayoff * ex (-(P.r * P.t_max))
  { s := s
    expectedPayoff := expectedPayoff
    optionPrice := c
    effects :=
      [Effect.print "Expected payoff is" [expectedPayoff],
       Effect.print "Call option price is" [c]] }

/-- Embedding of `heston.simulate` (src/heston.py lines 10-67).
`n = 0` makes `t_max / n` raise ZeroDivisionError; the probability
validation happens inside `np.random.choice` (line 44, after the shock
matrices are drawn but before the time loop); otherwise the body of
`hestonRun` executes. -/
def hestonSimulate (P : HestonParams) (sq ex : ℚ → ℚ) (zv zi : ℕ → ℕ → ℚ)
    (u : ℕ → ℚ) : Except String SimResult :=
  if P.n = 0 then Except.error "ZeroDivisionError: float division by zero"
  else
    match choiceError P.rho_choice P.rho_probability with
    | some e => Except.error e
    | none => Except.ok (hestonRun P sq ex zv zi u)

/-- The effect trace of a run of the engine (`.error` aborts before any
output is produced). -/
def effectsOf : Except String SimResult → List Effect
  | Except.ok res => res.effects
  | Except.error _ => []

/-! ### The run.py script variant -/

/-- Embedding of the mode estimate of src/run.py lines 72-73 (and 79-80):
`bins = np.arange(v.min(), v.max() + 0.02, 0.02)` and
`mode = bins[np.histogram(v, bins=bins)[0].argmax()] + 0.01`.
The bin width `0.02` and the half-width `0.01` are hardcoded. -/
def modeOf (values : List ℚ) : ℚ :=
  let bins := npArange (listMin values) (listMax values + 1 / 50) (1 / 50)
  bins.getD (argmax (histCounts values bins)) 0 + 1 / 100

/-- Modelled from the spec (section 4.2): the mode estimate as the spec
words it, with `binWidth` as an input — histogram the values into bins of
width `binWidth` spanning `[min, max]`, select the bin with the highest
count, and return its left edge plus half the bin width.  Used only to
compare against the source-derived `modeOf`. -/
def modeSpec (values : List ℚ) (binWidth : ℚ) : ℚ :=
  let bins := npArange (listMin values) (listMax values + binWidth) binWidth
  bins.getD (argmax (histCounts values bins)) 0 + binWidth / 2

/-- The constants hardcoded by `run.simulate` (src/run.py lines 34-44);
`m = n * n = 160000`. -/
def runParams : HestonParams where
  r := 319 / 10000
  k := 2
  s_o := 2
  t_max := 1
  v_o := 10201 / 1000000
  sigma := 61 / 100
  theta := 19 / 1000
  kappa := 621 / 100
  rho_choice := [-(1 / 2), -(7 / 10), -(9 / 10)]
  rho_probability := [1 / 4, 1 / 2, 1 / 4]
  m := 160000
  n := 400

/-- The observable outcome of `run.simulate`: the internal matrix and
statistics it computes, its effect trace, and its return value `ret`.
The Python function body has no `return` statement, so `ret` is `none`. -/
structure RunResult where
  s : List (List ℚ)
  expectedPrice : ℚ
  priceStd : ℚ
  priceError : ℚ
  priceMode : ℚ
  payoff : List ℚ
  expectedPayoff : ℚ
  payoffStd : ℚ
  payoffError : ℚ
  payoffMode : ℚ
  optionPrice : ℚ
  effects : List Effect
  ret : Option (List (List ℚ))

/-- Embedding of `run.simulate` (src/run.py lines 19-143): the same
simulation recurrence with the hardcoded `runParams`, followed by the
terminal statistics (lines 69-82), the console report (lines 29 and
84-95), and the two saved figures (lines 135 and 143).  `elapsed` stands
for the wall-clock difference `time() - start`.  The function body never
returns `s`, so `ret := none`. -/
def runSimulate (sq ex : ℚ → ℚ) (zv zi : ℕ → ℕ → ℚ) (u : ℕ → ℚ) (elapsed : ℚ) :
    RunResult :=
  let s := priceMatrix runParams sq zv zi u
  let sT := terminal s
  let expectedPrice := npMean sT
  let priceStd := npStd sq sT
  let priceError := priceStd / sq ((runParams.m : ℚ))
  let priceMode := modeOf sT
  let payoff := payoffOf sT runParams.k
  let expectedPayoff := npMean payoff
  let payoffStd := npStd sq payoff
  let payoffError := payoffStd / sq ((runParams.m : ℚ))
  let payoffMode := modeOf payoff
  let c := expectedPayoff * ex (-(runParams.r * runParams.t_max))
  { s := s
    expectedPrice := expectedPrice
    priceStd := priceStd
    priceError := priceError
    priceMode := priceMode
    payoff := payoff
    expectedPayoff := expectedPayoff
    payoffStd := payoffStd
    payoffError := payoffError
    payoffMode := payoffMode
    optionPrice := c
    effects :=
      [Effect.print "Starting the simulation." [],
       Effect.print "Expected fuel price" [expectedPrice, priceError],
       Effect.print "Expected payoff" [expectedPayoff, payoffError],
       Effect.print "Option price" [c],
       Effect.print "Total price to cover 2 Million Gallons" [c * 2000000],
       Effect.print "Price Mean, Mode, STD" [expectedPrice, priceMode, priceStd],
       Effect.print "Payoff Mean, Mode, STD" [expectedPayoff, payoffMode, payoffStd],
       Effect.print "Simulation time" [elapsed],
       Effect.print "Number of time steps" [(runParams.n : ℚ)],
       Effect.print "Number of simulations" [(runParams.m : ℚ)],
       Effect.print "Total number samples" [((runParams.m * runParams.n : ℕ) : ℚ)],
       Effect.savefig "simulation.png",
       Effect.savefig "payoffs.png"]
    ret := none }

/-! ### Concrete test fixtures -/

/-- The identity, standing in for `np.sqrt` / `np.exp` in concrete runs
(these engine properties hold for any such function). -/
def qid : ℚ → ℚ := fun q => q

/-- All-zero standard-normal draws. -/
def zeroShock : ℕ → ℕ → ℚ := fun _ _ => 0

/-- All-one standard-normal draws. -/
def oneShock : ℕ → ℕ → ℚ := fun _ _ => 1

/-- All-zero uniform draws for the categorical choice. -/
def zeroU : ℕ → ℚ := fun _ => 0

/-- A small valid parameter set: one path, one step, mixture `{1/2 : 1}`. -/
def P1 : HestonParams where
  r := 1 / 10
  k := 1
  s_o := 2
  t_max := 1
  v_o := 1
  sigma := 1
  theta := 1
  kappa := 1
  rho_choice := [1 / 2]
  rho_probability := [1]
  m := 1
  n := 1

/-- The engine result on `P1` with unit shocks. -/
def res1 : SimResult := hestonRun P1 qid qid oneShock oneShock zeroU

/-- A parameter set violating the `numPaths ≥ 1` precondition (`m = 0`),
with everything else valid. -/
def P5 : HestonParams where
  r := 0
  k := 0
  s_o := 1
  t_max := 1
  v_o := 0
  sigma := 0
  theta := 0
  kappa := 0
  rho_choice := [1]
  rho_probability := [1]
  m := 0
  n := 1

/-- `P1` with a probability vector summing to `1/2` instead of `1`. -/
def P5bad : HestonParams := { P1 with rho_probability := [1 / 2] }

/-- `P1` with the out-of-range correlation value `rho = 2`. -/
def badRhoParams : HestonParams := { P1 with rho_choice := [2] }

/-! ### Shared lemmas -/

theorem getD_range_map {α : Type} (f : ℕ → α) (k j : ℕ) (h : j < k) (d : α) :
    ((List.range k).map f).getD j d = f j := by
  simp [List.getD_eq_getElem?_getD, List.getElem?_map, List.getElem?_range h]

theorem categoricalPick_mem :
    ∀ (cs ps : List ℚ) (u : ℚ), cs ≠ [] → categoricalPick cs ps u ∈ cs
  | [], _, _, h => absurd rfl h
  | [c], ps, u, _ => by simp [categoricalPick]
  | c :: c2 :: cs, [], u, _ => by simp [categoricalPick]
  | c :: c2 :: cs, p :: ps, u, _ => by
    simp only [categoricalPick]
    split
    · exact List.mem_cons_self _ _
    · exact List.mem_cons_of_mem _ (categoricalPick_mem (c2 :: cs) ps (u - p) (by simp))

theorem evolve_zero (P : HestonParams) (sq : ℚ → ℚ) (zv zi : ℕ → ℕ → ℚ) (u : ℕ → ℚ)
    (i : ℕ) : evolve P sq zv zi u i 0 = (P.v_o, P.s_o) := rfl

theorem evolve_succ_fst (P : HestonParams) (sq : ℚ → ℚ) (zv zi : ℕ → ℕ → ℚ) (u : ℕ → ℚ)
    (i t : ℕ) :
    (evolve P sq zv zi u i (t + 1)).1 =
      max ((evolve P sq zv zi u i t).1 +
        (P.kappa * (P.theta - (evolve P sq zv zi u i t).1) * dtOf P +
         P.sigma * sq (evolve P sq zv zi u i t).1 * dwV P sq zv i t)) 0 := rfl

theorem evolve_succ_snd (P : HestonParams) (sq : ℚ → ℚ) (zv zi : ℕ → ℕ → ℚ) (u : ℕ → ℚ)
    (i t : ℕ) :
    (evolve P sq zv zi u i (t + 1)).2 =
      (evolve P sq zv zi u i t).2 +
        (P.r * (evolve P sq zv zi u i t).2 * dtOf P +
         sq (evolve P sq zv zi u i t).1 * (evolve P sq zv zi u i t).2 *
           dwS P sq zv zi u i t) := rfl

theorem pricePath_getD (P : HestonParams) (sq : ℚ → ℚ) (zv zi : ℕ → ℕ → ℚ) (u : ℕ → ℚ)
    (i t : ℕ) (h : t < P.n + 1) :
    (pricePath P sq zv zi u i).getD t 0 = (evolve P sq zv zi u i t).2 :=
  getD_range_map _ _ _ h _

theorem priceMatrix_getD (P : HestonParams) (sq : ℚ → ℚ) (zv zi : ℕ → ℕ → ℚ) (u : ℕ → ℚ)
    (i : ℕ) (h : i < P.m) :
    (priceMatrix P sq zv zi u).getD i [] = pricePath P sq zv zi u i :=
  getD_range_map _ _ _ h _

theorem hestonSimulate_ok (P : HestonParams) (sq ex : ℚ → ℚ) (zv zi : ℕ → ℕ → ℚ)
    (u : ℕ → ℚ) (res : SimResult)
    (h : hestonSimulate P sq ex zv zi u = Except.ok res) :
    res = hestonRun P sq ex zv zi u := by
  unfold hestonSimulate at h
  split at h
  · exact absurd h (by simp)
  · split at h
    · exact absurd h (by simp)
    · injection h with h
      exact h.symm

theorem hestonRun_s (P : HestonParams) (sq ex : ℚ → ℚ) (zv zi : ℕ → ℕ → ℚ) (u : ℕ → ℚ) :
    (hestonRun P sq ex zv zi u).s = priceMatrix P sq zv zi u := rfl

theorem hestonRun_expectedPayoff (P : HestonParams) (sq ex : ℚ → ℚ)
    (zv zi : ℕ → ℕ → ℚ) (u : ℕ → ℚ) :
    (hestonRun P sq ex zv zi u).expectedPayoff =
      npMean (payoffOf (terminal (priceMatrix P sq zv zi u)) P.k) := rfl

theorem hestonRun_optionPrice (P : HestonParams) (sq ex : ℚ → ℚ)
    (zv zi : ℕ → ℕ → ℚ) (u : ℕ → ℚ) :
    (hestonRun P sq ex zv zi u).optionPrice =
      npMean (payoffOf (terminal (priceMatrix P sq zv zi u)) P.k) *
        ex (-(P.r * P.t_max)) := rfl

theorem hestonRun_effects (P : HestonParams) (sq ex : ℚ → ℚ)
    (zv zi : ℕ → ℕ → ℚ) (u : ℕ → ℚ) :
    (hestonRun P sq ex zv zi u).effects =
      [Effect.print "Expected payoff is" [(hestonRun P sq ex zv zi u).expectedPayoff],
       Effect.print "Call option price is" [(hestonRun P sq ex zv zi u).optionPrice]] := rfl

/-! ### Claim theorems -/

/-- Claim C1: for every valid parameter set and every time step `t` from 0
to `numSteps - 1`, the engine updates state exactly by the recurrence
`deltaVariance = kappa*(theta - variance)*dt + sigma*sqrt(variance)*dwVariance[:,t]`,
`deltaPrice = r*price[:,t]*dt + sqrt(variance)*price[:,t]*dwPrice[:,t]`,
computed from the pre-update variance; variance becomes
`max(variance + deltaVariance, 0)` and `price[:,t+1] = price[:,t] + deltaPrice`,
with `dt = horizon / numSteps`. -/
theorem c1_step_recurrence (P : HestonParams) (sq ex : ℚ → ℚ) (zv zi : ℕ → ℕ → ℚ)
    (u : ℕ → ℚ) (res : SimResult) (i t : ℕ)
    (h : hestonSimulate P sq ex zv zi u = Except.ok res) (hi : i < P.m) (ht : t < P.n) :
    dtOf P = P.t_max / (P.n : ℚ) ∧
    (evolve P sq zv zi u i (t + 1)).1 =
      max ((evolve P sq zv zi u i t).1 +
        (P.kappa * (P.theta - (evolve P sq zv zi u i t).1) * dtOf P +
         P.sigma * sq (evolve P sq zv zi u i t).1 * dwV P sq zv i t)) 0 ∧
    (res.s.getD i []).getD (t + 1) 0 =
      (res.s.getD i []).getD t 0 +
        (P.r * (res.s.getD i []).getD t 0 * dtOf P +
         sq (evolve P sq zv zi u i t).1 * (res.s.getD i []).getD t 0 *
           dwS P sq zv zi u i t) := by
  have hres := hestonSimulate_ok P sq ex zv zi u res h
  subst hres
  refine ⟨rfl, evolve_succ_fst P sq zv zi u i t, ?_⟩
  have hrow : (hestonRun P sq ex zv zi u).s.getD i [] = pricePath P sq zv zi u i :=
    priceMatrix_getD P sq zv zi u i hi
  rw [hrow, pricePath_getD P sq zv zi u i (t + 1) (Nat.succ_lt_succ ht),
    pricePath_getD P sq zv zi u i t (Nat.lt_succ_of_lt ht)]
  exact evolve_succ_snd P sq zv zi u i t

/-- Witness for C1 on the concrete configuration `P1` with unit shocks,
at path 0 and time step 0. -/
theorem c1_step_recurrence_witness :
    (hestonSimulate P1 qid qid oneShock oneShock zeroU = Except.ok res1 ∧
      0 < P1.m ∧ 0 < P1.n) ∧
    (dtOf P1 = P1.t_max / (P1.n : ℚ) ∧
     (evolve P1 qid oneShock oneShock zeroU 0 (0 + 1)).1 =
       max ((evolve P1 qid oneShock oneShock zeroU 0 0).1 +
         (P1.kappa * (P1.theta - (evolve P1 qid oneShock oneShock zeroU 0 0).1) * dtOf P1 +
          P1.sigma * qid (evolve P1 qid oneShock oneShock zeroU 0 0).1 *
            dwV P1 qid oneShock 0 0)) 0 ∧
     (res1.s.getD 0 []).getD (0 + 1) 0 =
       (res1.s.getD 0 []).getD 0 0 +
         (P1.r * (res1.s.getD 0 []).getD 0 0 * dtOf P1 +
          qid (evolve P1 qid oneShock oneShock zeroU 0 0).1 * (res1.s.getD 0 []).getD 0 0 *
            dwS P1 qid oneShock oneShock zeroU 0 0)) :=
  ⟨⟨rfl, by decide, by decide⟩,
   c1_step_recurrence P1 qid qid oneShock oneShock zeroU res1 0 0 rfl (by decide) (by decide)⟩

/-- Claim C2: with non-negative initial variance, the per-path variance
state is non-negative at every time step, for every realization of the
shocks, so `sqrt` is only ever applied to a non-negative variance. -/
theorem c2_variance_nonneg (P : HestonParams) (sq : ℚ → ℚ) (zv zi : ℕ → ℕ → ℚ)
    (u : ℕ → ℚ) (i : ℕ) (h : 0 ≤ P.v_o) :
    ∀ t : ℕ, 0 ≤ (evolve P sq zv zi u i t).1 := by
  intro t
  cases t with
  | zero => exact h
  | succ t =>
    rw [evolve_succ_fst]
    exact le_max_right _ _

/-- Witness for C2 on the concrete configuration `P1` with unit shocks,
at path 0 and time step 5. -/
theorem c2_variance_nonneg_witness :
    0 ≤ P1.v_o ∧ 0 ≤ (evolve P1 qid oneShock oneShock zeroU 0 5).1 :=
  ⟨by decide, c2_variance_nonneg P1 qid oneShock oneShock zeroU 0 (by decide) 5⟩

/-- Claim C3: each path draws exactly one `rho` from the configured
mixture (a member of the choice set, selected by the categorical draw),
that per-path `rho` is used at every time step, and the correlated price
shock is `dwPrice = rho*dwVariance + sqrt(1 - rho^2)*dwIndependent` built
from the two independent `sqrt(dt)`-scaled standard-normal shocks. -/
theorem c3_correlation_mixture (P : HestonParams) (sq : ℚ → ℚ) (zv zi : ℕ → ℕ → ℚ)
    (u : ℕ → ℚ) (i t : ℕ) (hne : P.rho_choice ≠ []) :
    rhoOf P u i ∈ P.rho_choice ∧
    dwS P sq zv zi u i t =
      rhoOf P u i * dwV P sq zv i t + sq (1 - rhoOf P u i ^ 2) * dwI P sq zi i t ∧
    dwV P sq zv i t = zv i t * sq (dtOf P) ∧
    dwI P sq zi i t = zi i t * sq (dtOf P) :=
  ⟨categoricalPick_mem _ _ _ hne, rfl, rfl, rfl⟩

/-- Witness for C3 on the concrete configuration `P1`, path 0, step 0. -/
theorem c3_correlation_mixture_witness :
    P1.rho_choice ≠ [] ∧
    (rhoOf P1 zeroU 0 ∈ P1.rho_choice ∧
     dwS P1 qid oneShock oneShock zeroU 0 0 =
       rhoOf P1 zeroU 0 * dwV P1 qid oneShock 0 0 +
         qid (1 - rhoOf P1 zeroU 0 ^ 2) * dwI P1 qid oneShock 0 0 ∧
     dwV P1 qid oneShock 0 0 = oneShock 0 0 * qid (dtOf P1) ∧
     dwI P1 qid oneShock 0 0 = oneShock 0 0 * qid (dtOf P1)) :=
  ⟨by decide, c3_correlation_mixture P1 qid oneShock oneShock zeroU 0 0 (by decide)⟩

/-- Claim C4: for all valid parameters the returned matrix has shape
exactly `[numPaths, numSteps+1]`, and column 0 equals `initialPrice` for
every path, exactly. -/
theorem c4_shape_initial (P : HestonParams) (sq ex : ℚ → ℚ) (zv zi : ℕ → ℕ → ℚ)
    (u : ℕ → ℚ) (res : SimResult)
    (h : hestonSimulate P sq ex zv zi u = Except.ok res) :
    res.s.length = P.m ∧
    (∀ row ∈ res.s, row.length = P.n + 1) ∧
    (∀ row ∈ res.s, row.getD 0 0 = P.s_o) := by
  have hres := hestonSimulate_ok P sq ex zv zi u res h
  subst hres
  refine ⟨?_, ?_, ?_⟩
  · show (priceMatrix P sq zv zi u).length = P.m
    simp [priceMatrix]
  · intro row hrow
    obtain ⟨j, hj, rfl⟩ := List.mem_map.mp hrow
    simp [pricePath]
  · intro row hrow
    obtain ⟨j, hj, rfl⟩ := List.mem_map.mp hrow
    exact pricePath_getD P sq zv zi u j 0 (Nat.succ_pos _)

/-- Witness for C4 on the concrete configuration `P1` with unit shocks. -/
theorem c4_shape_initial_witness :
    hestonSimulate P1 qid qid oneShock oneShock zeroU = Except.ok res1 ∧
    res1.s.length = P1.m ∧
    (res1.s.getD 0 []).length = P1.n + 1 ∧
    (res1.s.getD 0 []).getD 0 0 = P1.s_o :=
  ⟨rfl, (c4_shape_initial P1 qid qid oneShock oneShock zeroU res1 rfl).1,
   (c4_shape_initial P1 qid qid oneShock oneShock zeroU res1 rfl).2.1 _ (by decide),
   (c4_shape_initial P1 qid qid oneShock oneShock zeroU res1 rfl).2.2 _ (by decide)⟩

/-- Counterexample to C5 as stated: `P5` violates the `numPaths ≥ 1`
precondition (`m = 0`), yet the run is not aborted by any failure — it
succeeds and still produces its statistics output (prints). -/
theorem c5_counterexample :
    P5.m = 0 ∧
    hestonSimulate P5 qid qid zeroShock zeroShock zeroU =
      Except.ok (hestonRun P5 qid qid zeroShock zeroShock zeroU) ∧
    effectsOf (hestonSimulate P5 qid qid zeroShock zeroShock zeroU) ≠ [] :=
  ⟨rfl, rfl, List.cons_ne_nil _ _⟩

/-- Claim C5 (amended): zero `numSteps` and mixture-probability
violations (a negative probability, probabilities not summing to 1) do
abort the run with a library error raised before the time-stepping loop,
and such a failed run produces no output; but `numPaths = 0` (and a
non-positive horizon) are not detected — see the counterexample. -/
theorem c5_config_errors (P : HestonParams) (sq ex : ℚ → ℚ) (zv zi : ℕ → ℕ → ℚ)
    (u : ℕ → ℚ)
    (h : P.n = 0 ∨ (∃ p ∈ P.rho_probability, p < 0) ∨ P.rho_probability.sum ≠ 1) :
    (∃ e, hestonSimulate P sq ex zv zi u = Except.error e) ∧
    effectsOf (hestonSimulate P sq ex zv zi u) = [] := by
  have herr : ∃ e, hestonSimulate P sq ex zv zi u = Except.error e := by
    unfold hestonSimulate
    split
    · exact ⟨_, rfl⟩
    · rename_i hn
      rcases h with h0 | hbad
      · exact absurd h0 hn
      · cases hce : choiceError P.rho_choice P.rho_probability with
        | some e => exact ⟨e, rfl⟩
        | none =>
          exfalso
          unfold choiceError at hce
          split_ifs at hce with h1 h2 h3 h4
          rcases hbad with ⟨p, hp, hplt⟩ | hsum
          · exact h3 (List.any_eq_true.mpr ⟨p, hp, decide_eq_true hplt⟩)
          · exact h4 hsum
  refine ⟨herr, ?_⟩
  obtain ⟨e, he⟩ := herr
  rw [he]
  rfl

/-- Witness for the amended C5 on `P5bad`, whose probabilities sum to
`1/2`. -/
theorem c5_config_errors_witness :
    (P5bad.n = 0 ∨ (∃ p ∈ P5bad.rho_probability, p < 0) ∨
      P5bad.rho_probability.sum ≠ 1) ∧
    (∃ e, hestonSimulate P5bad qid qid zeroShock zeroShock zeroU = Except.error e) ∧
    effectsOf (hestonSimulate P5bad qid qid zeroShock zeroShock zeroU) = [] :=
  ⟨Or.inr (Or.inr (by decide)),
   c5_config_errors P5bad qid qid zeroShock zeroShock zeroU (Or.inr (Or.inr (by decide)))⟩

/-- Counterexample to C6 as stated: on a valid configuration the engine
does print (src/heston.py lines 64-65) — its effect trace is non-empty. -/
theorem c6_counterexample :
    hestonSimulate P1 qid qid oneShock oneShock zeroU = Except.ok res1 ∧
    res1.effects ≠ [] :=
  ⟨rfl, List.cons_ne_nil _ _⟩

/-- Claim C6 (amended): besides building the returned matrix, the
engine's only side effects are exactly two console prints (the expected
payoff and the option price); in particular every effect in its trace is
a print — it performs no plotting or figure output. -/
theorem c6_engine_effects (P : HestonParams) (sq ex : ℚ → ℚ) (zv zi : ℕ → ℕ → ℚ)
    (u : ℕ → ℚ) (res : SimResult)
    (h : hestonSimulate P sq ex zv zi u = Except.ok res) :
    res.effects =
      [Effect.print "Expected payoff is" [res.expectedPayoff],
       Effect.print "Call option price is" [res.optionPrice]] ∧
    ∀ eff ∈ res.effects, ∃ msg vals, eff = Effect.print msg vals := by
  have hres := hestonSimulate_ok P sq ex zv zi u res h
  subst hres
  refine ⟨rfl, ?_⟩
  intro eff heff
  rw [hestonRun_effects] at heff
  rcases List.mem_cons.mp heff with rfl | h2
  · exact ⟨_, _, rfl⟩
  · rcases List.mem_cons.mp h2 with rfl | h3
    · exact ⟨_, _, rfl⟩
    · cases h3

/-- Witness for the amended C6 on the concrete configuration `P1`. -/
theorem c6_engine_effects_witness :
    hestonSimulate P1 qid qid oneShock oneShock zeroU = Except.ok res1 ∧
    res1.effects =
      [Effect.print "Expected payoff is" [res1.expectedPayoff],
       Effect.print "Call option price is" [res1.optionPrice]] :=
  ⟨rfl, (c6_engine_effects P1 qid qid oneShock oneShock zeroU res1 rfl).1⟩

/-- Claim C7: the payoff vector is `max(S_T - K, 0)` elementwise (hence
every entry is non-negative), and the option price equals the payoff mean
multiplied by `exp(-rate*horizon)`. -/
theorem c7_payoff_discount (P : HestonParams) (sq ex : ℚ → ℚ) (zv zi : ℕ → ℕ → ℚ)
    (u : ℕ → ℚ) (res : SimResult)
    (h : hestonSimulate P sq ex zv zi u = Except.ok res) :
    payoffOf (terminal res.s) P.k = (terminal res.s).map (fun x => max (x - P.k) 0) ∧
    (∀ x ∈ payoffOf (terminal res.s) P.k, 0 ≤ x) ∧
    res.expectedPayoff = npMean (payoffOf (terminal res.s) P.k) ∧
    res.optionPrice = npMean (payoffOf (terminal res.s) P.k) * ex (-(P.r * P.t_max)) := by
  have hres := hestonSimulate_ok P sq ex zv zi u res h
  subst hres
  refine ⟨rfl, ?_, rfl, rfl⟩
  intro x hx
  obtain ⟨y, hy, rfl⟩ := List.mem_map.mp hx
  exact le_max_right _ _

/-- Witness for C7 on the concrete configuration `P1`. -/
theorem c7_payoff_discount_witness :
    hestonSimulate P1 qid qid oneShock oneShock zeroU = Except.ok res1 ∧
    res1.optionPrice =
      npMean (payoffOf (terminal res1.s) P1.k) * qid (-(P1.r * P1.t_max)) ∧
    0 ≤ (payoffOf (terminal res1.s) P1.k).getD 0 0 :=
  ⟨rfl, (c7_payoff_discount P1 qid qid oneShock oneShock zeroU res1 rfl).2.2.2,
   (c7_payoff_discount P1 qid qid oneShock oneShock zeroU res1 rfl).2.1 _ (by decide)⟩

/-- Counterexample to C8 as stated: the reducer does not take `binWidth`
as an input — it is hardcoded to `0.02` (half-width `0.01`).  On the
vector `[0, 0.01, 0.06]` the code's mode is `0.01`, while the claimed
histogram-mode algorithm evaluated at `binWidth = 0.04` yields `0.02`. -/
theorem c8_counterexample :
    modeOf [0, 1 / 100, 6 / 100] = 1 / 100 ∧
    modeSpec [0, 1 / 100, 6 / 100] (1 / 25) = 1 / 50 ∧
    modeOf [0, 1 / 100, 6 / 100] ≠ modeSpec [0, 1 / 100, 6 / 100] (1 / 25) :=
  ⟨by decide, by decide, by decide⟩

/-- Claim C8 (amended): for every terminal-value vector with at least
two distinct values, the reducer's mode equals the spec's
histogram-bin-center algorithm evaluated at the fixed bin width `0.02`
(which is hardcoded, not an input), and the script uses this mode
estimate for both the price and the payoff statistics. -/
theorem c8_mode_binwidth (values : List ℚ) (h : listMin values < listMax values) :
    modeOf values = modeSpec values (1 / 50) ∧
    ∀ (sq ex : ℚ → ℚ) (zv zi : ℕ → ℕ → ℚ) (u : ℕ → ℚ) (e : ℚ),
      (runSimulate sq ex zv zi u e).priceMode =
        modeOf (terminal (priceMatrix runParams sq zv zi u)) ∧
      (runSimulate sq ex zv zi u e).payoffMode =
        modeOf (payoffOf (terminal (priceMatrix runParams sq zv zi u)) runParams.k) := by
  constructor
  · simp only [modeOf, modeSpec]
    norm_num
  · intro sq ex zv zi u e
    exact ⟨rfl, rfl⟩

/-- Witness for the amended C8 on the vector `[0, 0.01, 0.06]`. -/
theorem c8_mode_binwidth_witness :
    listMin [0, 1 / 100, 6 / 100] < listMax [0, 1 / 100, 6 / 100] ∧
    modeOf [0, 1 / 100, 6 / 100] = modeSpec [0, 1 / 100, 6 / 100] (1 / 50) ∧
    (runSimulate qid qid zeroShock zeroShock zeroU 0).priceMode =
      modeOf (terminal (priceMatrix runParams qid zeroShock zeroShock zeroU)) :=
  ⟨by decide, (c8_mode_binwidth [0, 1 / 100, 6 / 100] (by decide)).1,
   ((c8_mode_binwidth [0, 1 / 100, 6 / 100] (by decide)).2
      qid qid zeroShock zeroShock zeroU 0).1⟩

/-- Claim C9: the hardcoded-parameter script variant's `simulate` always
returns `None` — its body has no return statement, so the computed
`[m, n+1]` matrix (which it does build internally, field `s`) is never
handed back to the caller. -/
theorem c9_run_returns_none (sq ex : ℚ → ℚ) (zv zi : ℕ → ℕ → ℚ) (u : ℕ → ℚ)
    (elapsed : ℚ) : (runSimulate sq ex zv zi u elapsed).ret = none := rfl

/-- Claim C10: whenever every configured correlation satisfies
`|rho| ≤ 1`, the argument `1 - rho^2` passed to `sqrt` is non-negative
for every path; and no runtime check enforces this — with the
out-of-range `rho_choice = [2]` the engine still runs to a successful
result while the argument `1 - rho^2 = -3` handed to `sqrt` is
negative. -/
theorem c10_rho_bound (P : HestonParams) (u : ℕ → ℚ) (i : ℕ)
    (hne : P.rho_choice ≠ []) (h : ∀ ρ ∈ P.rho_choice, |ρ| ≤ 1) :
    0 ≤ 1 - rhoOf P u i ^ 2 ∧
    hestonSimulate badRhoParams qid qid zeroShock zeroShock zeroU =
      Except.ok (hestonRun badRhoParams qid qid zeroShock zeroShock zeroU) ∧
    1 - rhoOf badRhoParams zeroU 0 ^ 2 < 0 := by
  refine ⟨?_, rfl, by decide⟩
  have habs := abs_le.mp
    (h (rhoOf P u i) (categoricalPick_mem P.rho_choice P.rho_probability (u i) hne))
  nlinarith [habs.1, habs.2]

/-- Witness for C10 on `P1`, whose single mixture value `1/2` is in
range. -/
theorem c10_rho_bound_witness :
    (P1.rho_choice ≠ [] ∧ ∀ ρ ∈ P1.rho_choice, |ρ| ≤ 1) ∧
    0 ≤ 1 - rhoOf P1 zeroU 0 ^ 2 ∧
    1 - rhoOf badRhoParams zeroU 0 ^ 2 < 0 :=
  ⟨⟨by decide, by decide⟩,
   (c10_rho_bound P1 zeroU 0 (by decide) (by decide)).1,
   (c10_rho_bound P1 zeroU 0 (by decide) (by decide)).2.2⟩

end Heston
